import Mathlib

/-!
Verification of the end-to-end-encryption key handler
(src/synapse/handlers/e2e_keys.py) against its specification.

The Python handler is shallowly embedded: JSON values become an inductive
type, Python dicts become insertion-ordered association lists, raised
exceptions become an error type threaded through Except, and the external
collaborators (key store, federation transport, Ed25519 signature
verification) become explicit function parameters, as the spec declares
them out of scope.  Store accessors are modelled as synchronous lookups.
-/

deriving instance DecidableEq for Except

namespace E2eKeys

/-- A parsed JSON value.  Python dicts keep insertion order, so objects are
ordered association lists.  Numbers are restricted to integers (no claim
involves floats). -/
inductive JsonV where
  | str : String → JsonV
  | num : Int → JsonV
  | bool : Bool → JsonV
  | null : JsonV
  | arr : List JsonV → JsonV
  | obj : List (String × JsonV) → JsonV

/-- A JSON object body (a Python dict with JSON values). -/
abbrev Jso := List (String × JsonV)

/-- Python `m[k]` / `k in m` for dicts: first (unique) binding of `k`. -/
def lookupA {α : Type} : List (String × α) → String → Option α
  | [], _ => none
  | (k2, v) :: rest, k => if k2 = k then some v else lookupA rest k

/-- Python `m[k] = v` on a dict: replace in place when the key exists
(keeping its position), otherwise append at the end. -/
def upsertA {α : Type} (m : List (String × α)) (k : String) (v : α) :
    List (String × α) :=
  if (lookupA m k).isSome then
    m.map (fun p => if p.1 = k then (k, v) else p)
  else
    m ++ [(k, v)]

/-- Python `del m[k]` / `m.pop(k, None)` on a dict. -/
def eraseA {α : Type} (m : List (String × α)) (k : String) :
    List (String × α) :=
  m.filter (fun p => p.1 ≠ k)

mutual
/-- Python `==` on parsed JSON values: dict comparison ignores key order
(same key set, equal values); lists compare pointwise.  (Python's
numeric/bool cross-type unification, e.g. `True == 1`, is not modelled:
no value in this development mixes those types under comparison.) -/
def pyEq : JsonV → JsonV → Bool
  | JsonV.str a, JsonV.str b => a = b
  | JsonV.num a, JsonV.num b => a = b
  | JsonV.bool a, JsonV.bool b => a = b
  | JsonV.null, JsonV.null => true
  | JsonV.arr a, JsonV.arr b => pyEqList a b
  | JsonV.obj a, JsonV.obj b => a.length = b.length && pyEqObj a b
  | _, _ => false

/-- Pointwise Python equality of JSON lists. -/
def pyEqList : List JsonV → List JsonV → Bool
  | [], [] => true
  | x :: xs, y :: ys => pyEq x y && pyEqList xs ys
  | _, _ => false

/-- Every binding of the first object is matched by a Python-equal binding
of the second. -/
def pyEqObj : List (String × JsonV) → List (String × JsonV) → Bool
  | [], _ => true
  | (k, v) :: rest, b =>
    (match lookupA b k with
     | some w => pyEq v w
     | none => false) && pyEqObj rest b
end

/-- Python exceptions raised (or raisable) by the handler code. -/
inductive PyErr where
  | synapseError : Nat → String → PyErr
  | typeError : PyErr
  | keyError : PyErr
  | valueError : PyErr
  | indexError : PyErr
  | attributeError : PyErr
  | signatureVerifyError : PyErr
deriving DecidableEq, Repr

/-! ## One-time keys: _upload_one_time_keys_for_user, _one_time_keys_match -/

/-- _one_time_keys_match.  The stored value is kept in parsed form: the
canonical-JSON encode/parse round trip the source performs preserves the
parsed value up to object key order, which pyEq ignores.  If either side is
not an object they must be Python-equal; otherwise both are compared after
stripping `signatures`. -/
def one_time_keys_match (old_key : JsonV) (new_key : JsonV) : Bool :=
  match old_key, new_key with
  | JsonV.obj o, JsonV.obj n =>
    pyEq (JsonV.obj (eraseA o "signatures")) (JsonV.obj (eraseA n "signatures"))
  | _, _ => pyEq old_key new_key

/-- Python `s.split(":")`: split the string on every colon. -/
def pySplitColon (s : String) : List String :=
  (go s.data).map (fun cs => String.mk cs)
where
  /-- Split a character list on every colon. -/
  go : List Char → List (List Char)
  | [] => [[]]
  | c :: cs =>
    match go cs with
    | [] => [[]]
    | g :: gs => if c = ':' then [] :: g :: gs else (c :: g) :: gs

/-- Python `algorithm, key_id = key_id.split(":")`: unpacking succeeds only
when the string holds exactly one colon, else ValueError. -/
def splitAlgId (s : String) : Except PyErr (String × String) :=
  match pySplitColon s with
  | [a, b] => Except.ok (a, b)
  | _ => Except.error PyErr.valueError

/-- First loop of _upload_one_time_keys_for_user: turn the uploaded
`"algorithm:key_id" → key` dict into the (alg, id, key) list. -/
def buildKeyList : List (String × JsonV) →
    Except PyErr (List (String × String × JsonV))
  | [] => Except.ok []
  | (kid, keyObj) :: rest => do
    let (alg, id2) ← splitAlgId kid
    let tail ← buildKeyList rest
    Except.ok ((alg, id2, keyObj) :: tail)

/-- Second loop of _upload_one_time_keys_for_user: against the already
persisted values (`existing`, the store's get_e2e_one_time_keys view in
parsed form), reject a conflicting re-upload with a 400 SynapseError and
collect the genuinely new keys to insert. -/
def checkNewKeys (existing : String → String → Option JsonV) :
    List (String × String × JsonV) →
    Except PyErr (List (String × String × JsonV))
  | [] => Except.ok []
  | (alg, kid, key) :: rest =>
    match existing alg kid with
    | some ex_json =>
      if one_time_keys_match ex_json key then
        checkNewKeys existing rest
      else
        Except.error (PyErr.synapseError 400
          ("One time key " ++ alg ++ ":" ++ kid ++ " already exists. "
            ++ "Old key differs from new key."))
    | none => do
      let tail ← checkNewKeys existing rest
      Except.ok ((alg, kid, key) :: tail)

/-- _upload_one_time_keys_for_user: returns the list of new keys handed to
store.add_e2e_one_time_keys (logging, timestamps and the store write itself
are external). -/
def upload_one_time_keys_for_user (existing : String → String → Option JsonV)
    (one_time_keys : List (String × JsonV)) :
    Except PyErr (List (String × String × JsonV)) := do
  let key_list ← buildKeyList one_time_keys
  checkNewKeys existing key_list

/-! ## Cross-signing keys: upload_signing_keys_for_user -/

/-- A cross-signing key record as uploaded / stored (the JSON shape of
spec section 6: `user_id`, `usage`, `keys`, optional `replaces`, optional
`signatures`).  Optional fields model Python dict-membership tests; the
verify-key data is its unpadded-base64 string, the Ed25519 decode being a
trusted primitive. -/
structure KeyInfo where
  user_id : String
  usage : List String
  keys : Option (List (String × String))
  replaces : Option String
  signatures : Option (List (String × List (String × String)))
deriving DecidableEq, Repr

/-- _get_verify_key_from_key_info.  The source applies this to values that
may be Python None, where `"keys" not in key_info` raises TypeError; a
missing or non-singleton `keys` dict raises SynapseError 400; otherwise the
single (key_id, key_data) binding is returned. -/
def get_verify_key_from_key_info (key_info : Option KeyInfo) :
    Except PyErr (String × String) :=
  match key_info with
  | none => Except.error PyErr.typeError
  | some ki =>
    match ki.keys with
    | none => Except.error (PyErr.synapseError 400 "Invalid key")
    | some ks =>
      match ks with
      | [(kid, kdata)] => Except.ok (kid, kdata)
      | _ => Except.error (PyErr.synapseError 400 "Invalid key")

/-- Python `s.split(":", 1)[1]`: the part after the first colon, IndexError
when the string holds no colon. -/
def afterFirstColon (s : String) : Except PyErr String :=
  go s.data
where
  /-- Scan to the first colon and return what follows it. -/
  go : List Char → Except PyErr String
  | [] => Except.error PyErr.indexError
  | c :: cs => if c = ':' then Except.ok (String.mk cs) else go cs

/-- The `keys` argument of upload_signing_keys_for_user: which of the two
cross-signing key slots the request carries. -/
structure SigningUpload where
  self_signing_key : Option KeyInfo
  user_signing_key : Option KeyInfo
deriving DecidableEq, Repr

/-- The store's per-user cross-signing state (get/set_e2e_self_signing_key,
get/set_e2e_user_signing_key). -/
structure SigningStore where
  self_signing : Option KeyInfo
  user_signing : Option KeyInfo
deriving DecidableEq, Repr

/-- upload_signing_keys_for_user.  `verify` stands for the trusted
signedjson.verify_signed_json primitive (arguments: the signed record, the
signing user, the verify-key data); the try/except around it in the source
turns a failed verification into a 400 SynapseError.  The returned store is
the state after the final set_e2e_* writes. -/
def upload_signing_keys_for_user (verify : KeyInfo → String → String → Bool)
    (store : SigningStore) (user_id : String) (keys : SigningUpload) :
    Except PyErr SigningStore := do
  let old_self_signing_key := store.self_signing
  let self_signing_key : Option KeyInfo ←
    match keys.self_signing_key with
    | none => pure old_self_signing_key
    | some ssk => do
      if ssk.user_id ≠ user_id ∨ "self_signing" ∉ ssk.usage then
        throw (PyErr.synapseError 400 "Invalid self-signing key")
      if old_self_signing_key.isSome then
        if ssk.replaces.isNone then
          throw (PyErr.synapseError 400 "A self-signing key already exists")
        let old_pair ← get_verify_key_from_key_info old_self_signing_key
        let bare ← afterFirstColon old_pair.1
        if ssk.replaces ≠ some bare then
          throw (PyErr.synapseError 400 "Incorrect replaces property")
      match ssk.signatures with
      | none => pure ()
      | some sigs => do
        if old_self_signing_key.isNone then
          throw (PyErr.synapseError 400 "Invalid signature")
        let old_pair ← get_verify_key_from_key_info old_self_signing_key
        match lookupA sigs user_id with
        | none =>
          throw (PyErr.synapseError 400 "Invalid signature on self-signing key")
        | some userSigs => do
          if (lookupA userSigs old_pair.1).isNone then
            throw (PyErr.synapseError 400 "Invalid signature on self-signing key")
          if ¬ verify ssk user_id old_pair.2 then
            throw (PyErr.synapseError 400 "Invalid signature on self-signing key")
      pure (some ssk)
  let cur_pair ← get_verify_key_from_key_info self_signing_key
  match keys.user_signing_key with
  | none => pure ()
  | some usk => do
    if usk.user_id ≠ user_id ∨ "user_signing" ∉ usk.usage then
      throw (PyErr.synapseError 400 "Invalid user-signing key")
    match usk.signatures with
    | none =>
      throw (PyErr.synapseError 400 "Invalid signature on user-signing key")
    | some sigs =>
      match lookupA sigs user_id with
      | none =>
        throw (PyErr.synapseError 400 "Invalid signature on user-signing key")
      | some userSigs => do
        if (lookupA userSigs cur_pair.1).isNone then
          throw (PyErr.synapseError 400 "Invalid signature on user-signing key")
        if ¬ verify usk user_id cur_pair.2 then
          throw (PyErr.synapseError 400 "Invalid signature on user-signing key")
  pure (SigningStore.mk
    (if keys.self_signing_key.isSome then self_signing_key else store.self_signing)
    (if keys.user_signing_key.isSome then keys.user_signing_key else store.user_signing))

/-- The store state a caller observes after the call: a raised exception
leaves the store untouched, because both set_e2e_* writes happen only after
every check has passed. -/
def upload_signing_keys_final_store (verify : KeyInfo → String → String → Bool)
    (store : SigningStore) (user_id : String) (keys : SigningUpload) :
    SigningStore :=
  match upload_signing_keys_for_user verify store user_id keys with
  | Except.ok s => s
  | Except.error _ => store

/-! ## Device-signature attestations: upload_signatures_for_device_keys -/

/-- The Python condition
`"signatures" in key and user_id in key["signatures"] and key_id in
key["signatures"][user_id]` followed by the read
`key["signatures"][user_id][key_id]` that the check loop of
upload_signatures_for_device_keys (lines 473-475) would apply to a signed
key object whose `signatures` field is a JSON object of objects (the shape
of spec section 6).  The loop itself is unreachable (see below); this
helper only serves to state which request entries a claim talks about. -/
def sigLookup (key : Jso) (user_id : String) (key_id : String) :
    Option JsonV :=
  match lookupA key "signatures" with
  | some (JsonV.obj sigs) =>
    match lookupA sigs user_id with
    | some (JsonV.obj userSigs) => lookupA userSigs key_id
    | _ => none
  | _ => none

/-- A signature row of the shape store_e2e_device_signatures would be
handed: (key_id, user, device, signature value). -/
abbrev SigRow := String × String × String × JsonV

/-- upload_signatures_for_device_keys.  Lines 445-456 resolve the
uploader's self-signing and user-signing key records through
_get_verify_key_from_key_info (raising SynapseError 400 on a malformed
record, TypeError on an absent one); lines 458-461 collect the requested
(user, device) pairs from the caller's mapping and line 462 fetches their
stored keys.  Line 464 then rebinds the `signatures` parameter to a fresh
empty staging list, and line 465 iterates `signatures.items()` over that
list — a Python list has no `.items()`, so every call raises an uncaught
AttributeError here.  The check loop of lines 466-485 (per-entry skips,
the in-place `del` of `signatures`/`unsigned`, the stored-payload
comparison, verify_signed_json, the staging) and the
store_e2e_device_signatures write at line 487 are unreachable dead code:
the call never persists anything and never returns successfully. -/
def upload_signatures_for_device_keys
    (self_signing_key user_signing_key : Option KeyInfo)
    (devices : String → String → Option Jso) (user_id : String)
    (signatures : List (String × List (String × Jso))) :
    Except PyErr (List SigRow) := do
  let _sskp ← get_verify_key_from_key_info self_signing_key
  let _uskp ← get_verify_key_from_key_info user_signing_key
  let user_devices := signatures.flatMap (fun p => p.2.map (fun q => (p.1, q.1)))
  let _devs := user_devices.map (fun ud => devices ud.1 ud.2)
  throw PyErr.attributeError

/-! ## Federation fan-out: do_remote_query, _exception_to_failure -/

/-- A per-destination failure record `{status, message}`. -/
structure Failure where
  status : Nat
  message : String
deriving DecidableEq, Repr

/-- The transport exceptions distinguished by _exception_to_failure.  The
exception classes live in synapse.api.errors / synapse.util.retryutils,
outside this source; they are modelled as a closed tagged type following the
spec's taxonomy (transport-coded, not-retrying, federation-denied, generic),
with str(e) modelled as the carried message. -/
inductive TransportEx where
  | codeMessage : Nat → String → TransportEx
  | notRetrying : TransportEx
  | federationDenied : TransportEx
  | other : String → TransportEx
deriving DecidableEq, Repr

/-- _exception_to_failure, branch for branch in source order. -/
def exception_to_failure : TransportEx → Failure
  | TransportEx.codeMessage c m => Failure.mk c m
  | TransportEx.notRetrying => Failure.mk 503 "Not ready for retry"
  | TransportEx.federationDenied => Failure.mk 403 "Federation Denied"
  | TransportEx.other m => Failure.mk 503 m

/-- do_remote_query for one destination.  `perform` is the federation
transport's query_client_keys returning the remote `device_keys` map or
raising; `remote_queries` gives destination_query's user set for each
destination.  A success copies each returned user present in the
destination's own query into the shared results dict; a failure stores the
mapped record under the destination in the shared failures dict. -/
def do_remote_query
    (perform : String → Except TransportEx (List (String × JsonV)))
    (remote_queries : String → List String) (destination : String)
    (acc : List (String × JsonV) × List (String × Failure)) :
    List (String × JsonV) × List (String × Failure) :=
  match perform destination with
  | Except.ok remote_result =>
    (remote_result.foldl
      (fun res p =>
        if (remote_queries destination).contains p.1 then
          upsertA res p.1 p.2
        else res) acc.1,
     acc.2)
  | Except.error e =>
    (acc.1, upsertA acc.2 destination (exception_to_failure e))

/-- The fan-out over all destinations.  The source launches the
per-destination units concurrently under single-threaded cooperative
scheduling with consumeErrors semantics and disjoint write keys, so the
merged outcome equals this sequential fold. -/
def runRemoteQueries
    (perform : String → Except TransportEx (List (String × JsonV)))
    (remote_queries : String → List String) :
    List String → (List (String × JsonV) × List (String × Failure)) →
    List (String × JsonV) × List (String × Failure)
  | [], acc => acc
  | d :: rest, acc =>
    runRemoteQueries perform remote_queries rest
      (do_remote_query perform remote_queries d acc)

/-! ## Local device query: query_local_devices -/

/-- A stored device row as returned by get_e2e_device_keys: the parsed
`keys` object and the display name. -/
structure DeviceInfo where
  keys : Jso
  device_display_name : Option String

/-- The per-device result object: a copy of the stored key object with an
`unsigned` sub-object carrying the display name when present. -/
def deviceResultObj (di : DeviceInfo) : Jso :=
  upsertA di.keys "unsigned"
    (match di.device_display_name with
     | none => JsonV.obj []
     | some dn => JsonV.obj [("device_display_name", JsonV.str dn)])

/-- First loop of query_local_devices: validate each user as local, build
the (user, device) store query list — an empty or absent device list queries
all devices — and seed every requested user with an empty result mapping. -/
def buildLocalQuery (is_mine_valid : String → Except PyErr Bool) :
    List (String × Option (List String)) →
    Except PyErr (List (String × Option String) ×
      List (String × List (String × Jso)))
  | [] => Except.ok ([], [])
  | (user_id, device_ids) :: rest => do
    let mine ← is_mine_valid user_id
    if ¬ mine then
      throw (PyErr.synapseError 400 "Not a user here")
    let entries :=
      match device_ids with
      | none => [(user_id, (none : Option String))]
      | some [] => [(user_id, none)]
      | some ds => ds.map (fun d => (user_id, some d))
    let (lq, rd) ← buildLocalQuery is_mine_valid rest
    Except.ok (entries ++ lq, (user_id, []) :: rd)

/-- Python `result_dict[user_id][device_id] = r`: KeyError when the user is
absent from the outer dict, else an upsert into that user's inner dict. -/
def setUserDevice (rd : List (String × List (String × Jso)))
    (u d : String) (r : Jso) :
    Except PyErr (List (String × List (String × Jso))) :=
  match lookupA rd u with
  | none => Except.error PyErr.keyError
  | some _ =>
    Except.ok (rd.map (fun p => if p.1 = u then (u, upsertA p.2 d r) else p))

/-- Inner loop over one user's stored devices. -/
def addUserDevices (user : String) :
    List (String × DeviceInfo) → List (String × List (String × Jso)) →
    Except PyErr (List (String × List (String × Jso)))
  | [], rd => Except.ok rd
  | (device, di) :: rest, rd => do
    let rd2 ← setUserDevice rd user device (deviceResultObj di)
    addUserDevices user rest rd2

/-- Second loop of query_local_devices over the store's result rows. -/
def addDeviceResults :
    List (String × List (String × DeviceInfo)) →
    List (String × List (String × Jso)) →
    Except PyErr (List (String × List (String × Jso)))
  | [], rd => Except.ok rd
  | (user, dks) :: rest, rd => do
    let rd2 ← addUserDevices user dks rd
    addDeviceResults rest rd2

/-- query_local_devices.  `is_mine_valid` is the composite
`is_mine(UserID.from_string(u))` of the two external collaborators (syntax
validation and homeserver ownership); `store_get` is get_e2e_device_keys. -/
def query_local_devices (is_mine_valid : String → Except PyErr Bool)
    (store_get : List (String × Option String) →
      List (String × List (String × DeviceInfo)))
    (query : List (String × Option (List String))) :
    Except PyErr (List (String × List (String × Jso))) := do
  let (local_query, result_dict) ← buildLocalQuery is_mine_valid query
  addDeviceResults (store_get local_query) result_dict

/-! ## One-time-key claims: the local result of claim_one_time_keys -/

/-- One write `json_result.setdefault(user_id, dict())[device_id] =
singleton` of claim_one_time_keys' local loop: the device entry is replaced
wholesale by a fresh one-binding mapping. -/
def addClaimedKey (jr : List (String × List (String × Jso)))
    (u d kid : String) (v : JsonV) : List (String × List (String × Jso)) :=
  upsertA jr u (upsertA ((lookupA jr u).getD []) d [(kid, v)])

/-- Innermost loop over one device's claimed keys. -/
def addClaimedDevice (u d : String) :
    List (String × JsonV) → List (String × List (String × Jso)) →
    List (String × List (String × Jso))
  | [], jr => jr
  | (kid, v) :: rest, jr => addClaimedDevice u d rest (addClaimedKey jr u d kid v)

/-- Loop over one user's devices. -/
def addClaimedUser (u : String) :
    List (String × List (String × JsonV)) →
    List (String × List (String × Jso)) →
    List (String × List (String × Jso))
  | [], jr => jr
  | (d, ks) :: rest, jr => addClaimedUser u rest (addClaimedDevice u d ks jr)

/-- The local-results accumulation of claim_one_time_keys: `results` is the
store's claim_e2e_one_time_keys answer (user → device → key_id → parsed
value), folded into json_result exactly as the source's triple loop does. -/
def claimedKeysResult
    (results : List (String × List (String × List (String × JsonV)))) :
    List (String × List (String × Jso)) :=
  go results []
where
  /-- Outer loop over users. -/
  go : List (String × List (String × List (String × JsonV))) →
      List (String × List (String × Jso)) →
      List (String × List (String × Jso))
    | [], jr => jr
    | (u, dks) :: rest, jr => go rest (addClaimedUser u dks jr)

/-- Validity of the chain signature on an uploaded self-signing key `ssk`,
for old key id `okid` with verify data `odata`: the `signatures` object must
hold an entry under (user, old key id) and that entry must cryptographically
verify. -/
def validOldKeySignature (verify : KeyInfo → String → String → Bool)
    (ssk : KeyInfo) (user_id okid odata : String)
    (sigs : List (String × List (String × String))) : Bool :=
  match lookupA sigs user_id with
  | none => false
  | some userSigs => (lookupA userSigs okid).isSome && verify ssk user_id odata

/-- An uploaded one-time-key entry conflicts with the store: its id splits
as algorithm:key-id, a value is already stored under that pair, and the
conflict rule (_one_time_keys_match) fails. -/
def conflictsWithStored (existing : String → String → Option JsonV)
    (p : String × JsonV) : Prop :=
  ∃ a b ex, splitAlgId p.1 = Except.ok (a, b) ∧ existing a b = some ex
    ∧ one_time_keys_match ex p.2 = false

/-- An uploaded one-time-key entry coincides with the store under the
conflict rule: a value is stored under its (algorithm, key-id) and matches. -/
def matchesStored (existing : String → String → Option JsonV)
    (p : String × JsonV) : Prop :=
  ∃ a b ex, splitAlgId p.1 = Except.ok (a, b) ∧ existing a b = some ex
    ∧ one_time_keys_match ex p.2 = true


/-- The response entry for (user, device) in the accumulated claim result:
none when the user is absent, else the inner device lookup. -/
def viewUD (jr : List (String × List (String × Jso))) (u d : String) :
    Option Jso :=
  match lookupA jr u with
  | none => none
  | some dm => lookupA dm d

/-- Every device entry of the accumulated claim result holds at most one
claimed key. -/
def singletonInv (jr : List (String × List (String × Jso))) : Prop :=
  ∀ u dm d entry, lookupA jr u = some dm → lookupA dm d = some entry →
    entry.length ≤ 1

/-! ## Concrete fixtures used in witnesses and counterexamples -/

/-- A one-time-key store holding a single string key under (alg1, k1). -/
def storedOneTimeKeys : String → String → Option JsonV :=
  fun a b => if a = "alg1" ∧ b = "k1" then some (JsonV.str "key1") else none

/-- Fan-out fixture: per-destination user queries, disjoint by domain. -/
def fanoutQueries : String → List String :=
  fun d => if d = "one.example" then ["@u1:one.example"]
    else if d = "bad.example" then ["@ub:bad.example"]
    else if d = "two.example" then ["@u2:two.example"]
    else []

/-- Fan-out fixture: two destinations answer, bad.example raises
NotRetryingDestination. -/
def fanoutPerform : String → Except TransportEx (List (String × JsonV)) :=
  fun d => if d = "bad.example" then Except.error TransportEx.notRetrying
    else if d = "one.example" then
      Except.ok [("@u1:one.example", JsonV.str "keys1")]
    else Except.ok [("@u2:two.example", JsonV.str "keys2")]

/-! Fixtures for the device-signature attestation claims: alice's two
cross-signing keys, bob's and carol's stored device keys, and uploaded
signed key objects. -/

/-- Alice's stored self-signing key record. -/
def attSelfKey : Option KeyInfo := some (KeyInfo.mk "@alice:test"
  ["self_signing"] (some [("ed25519:SSK", "SSKDATA")]) none none)

/-- Alice's stored user-signing key record. -/
def attUserKey : Option KeyInfo := some (KeyInfo.mk "@alice:test"
  ["user_signing"] (some [("ed25519:USK", "USKDATA")]) none none)

/-- An attestation for bob's device whose stripped payload equals the
stored object. -/
def attGoodKey : Jso := [("user_id", JsonV.str "@bob:test"),
  ("good", JsonV.bool true),
  ("signatures", JsonV.obj [("@alice:test",
    JsonV.obj [("ed25519:USK", JsonV.str "sig1")])]),
  ("unsigned", JsonV.obj [])]

/-- An attestation for carol's device. -/
def attBadKey : Jso := [("user_id", JsonV.str "@carol:test"),
  ("signatures", JsonV.obj [("@alice:test",
    JsonV.obj [("ed25519:USK", JsonV.str "sig2")])]),
  ("unsigned", JsonV.obj [])]

/-- An attestation carrying a matching signature entry but no `unsigned`
field. -/
def attNoUnsignedKey : Jso := [("user_id", JsonV.str "@bob:test"),
  ("signatures", JsonV.obj [("@alice:test",
    JsonV.obj [("ed25519:USK", JsonV.str "sig3")])])]

/-- An attestation for bob's device over a stale payload (differs from the
stored object). -/
def attStaleBobKey : Jso := [("user_id", JsonV.str "@bob:test"),
  ("stale", JsonV.bool true),
  ("signatures", JsonV.obj [("@alice:test",
    JsonV.obj [("ed25519:USK", JsonV.str "sig4")])]),
  ("unsigned", JsonV.obj [])]

/-- Bob's currently stored device keys object. -/
def attStoredBob : Jso := [("user_id", JsonV.str "@bob:test"),
  ("good", JsonV.bool true)]

/-- Carol's currently stored device keys object. -/
def attStoredCarol : Jso := [("user_id", JsonV.str "@carol:test")]

/-- The store's device-keys view: bob owns dev1, carol owns dev2. -/
def attDevices : String → String → Option Jso :=
  fun u d =>
    if u = "@bob:test" ∧ d = "dev1" then some attStoredBob
    else if u = "@carol:test" ∧ d = "dev2" then some attStoredCarol
    else none

/-- A stored self-signing key whose single verify key id is "ed25519:OLD". -/
def oldSelfKey : KeyInfo :=
  KeyInfo.mk "@alice:test" ["self_signing"]
    (some [("ed25519:OLD", "OLDDATA")]) none none

/-- A replacement self-signing key with the correct `replaces` id and no
`signatures` field at all. -/
def unsignedReplacementKey : KeyInfo :=
  KeyInfo.mk "@alice:test" ["self_signing"]
    (some [("ed25519:NEW", "NEWDATA")]) (some "OLD") none

/-- A replacement self-signing key with the correct `replaces` id and a
`signatures` entry under the old key id (treated as cryptographically
invalid by the verify functions of the fixtures that use it). -/
def badSignedReplacementKey : KeyInfo :=
  KeyInfo.mk "@alice:test" ["self_signing"]
    (some [("ed25519:NEW", "NEWDATA")]) (some "OLD")
    (some [("@alice:test", [("ed25519:OLD", "badsig")])])

/-- A structurally valid first self-signing key carrying a `signatures`
field. -/
def signedFirstKey : KeyInfo :=
  KeyInfo.mk "@alice:test" ["self_signing"]
    (some [("ed25519:NEW", "NEWDATA")]) none
    (some [("@alice:test", [("ed25519:NEW", "sig")])])

/-- A structurally valid first self-signing key with no `signatures`. -/
def plainFirstKey : KeyInfo :=
  KeyInfo.mk "@alice:test" ["self_signing"]
    (some [("ed25519:NEW", "NEWDATA")]) none none

/-- A user-signing key upload carrying a signature entry. -/
def someUserSigningKey : KeyInfo :=
  KeyInfo.mk "@alice:test" ["user_signing"]
    (some [("ed25519:U", "UDATA")]) none
    (some [("@alice:test", [("ed25519:OLD", "sig")])])

/-! ## Reduction helpers for the Except monad -/

theorem except_bind_error {ε α β : Type} (e : ε) (f : α → Except ε β) :
    (Except.error e >>= f) = Except.error e := rfl

theorem except_bind_ok {ε α β : Type} (a : α) (f : α → Except ε β) :
    (Except.ok a >>= f) = f a := rfl

theorem except_map_error {ε α β : Type} (e : ε) (f : α → β) :
    (f <$> (Except.error e : Except ε α)) = Except.error e := rfl

theorem except_map_ok {ε α β : Type} (a : α) (f : α → β) :
    (f <$> (Except.ok a : Except ε α)) = Except.ok (f a) := rfl

theorem except_throw_def {ε α : Type} (e : ε) :
    (throw e : Except ε α) = Except.error e := rfl

theorem except_pure_def {ε α : Type} (a : α) :
    (pure a : Except ε α) = Except.ok a := rfl

/-! ## Association-list (Python dict) lemmas -/

theorem lookupA_append_none {α : Type} {a : List (String × α)} {k : String}
    (b : List (String × α)) (h : lookupA a k = none) :
    lookupA (a ++ b) k = lookupA b k := by
  induction a with
  | nil => rfl
  | cons hd tl ih =>
    rw [lookupA] at h
    by_cases he : hd.1 = k
    · rw [if_pos he] at h; exact absurd h (by simp)
    · rw [if_neg he] at h
      show lookupA (hd :: (tl ++ b)) k = lookupA b k
      rw [lookupA, if_neg he]
      exact ih h

theorem lookupA_map_set_self {α : Type} (m : List (String × α)) (k : String)
    (v : α) (h : (lookupA m k).isSome) :
    lookupA (m.map (fun p => if p.1 = k then (k, v) else p)) k = some v := by
  induction m with
  | nil => rw [lookupA] at h; exact absurd h (by simp)
  | cons hd tl ih =>
    by_cases he : hd.1 = k
    · show lookupA ((if hd.1 = k then (k, v) else hd) :: _) k = some v
      rw [if_pos he, lookupA, if_pos rfl]
    · rw [lookupA, if_neg he] at h
      show lookupA ((if hd.1 = k then (k, v) else hd) :: _) k = some v
      rw [if_neg he, lookupA, if_neg he]
      exact ih h

theorem lookupA_map_set_other {α : Type} (m : List (String × α)) (k k2 : String)
    (v : α) (hne : k ≠ k2) :
    lookupA (m.map (fun p => if p.1 = k2 then (k2, v) else p)) k = lookupA m k := by
  induction m with
  | nil => rfl
  | cons hd tl ih =>
    by_cases he : hd.1 = k2
    · show lookupA ((if hd.1 = k2 then (k2, v) else hd) :: _) k = lookupA (hd :: tl) k
      rw [if_pos he, lookupA, if_neg (fun hc => hne hc.symm), lookupA,
        if_neg (fun hc : hd.1 = k => hne (hc.symm.trans he))]
      exact ih
    · show lookupA ((if hd.1 = k2 then (k2, v) else hd) :: _) k = lookupA (hd :: tl) k
      rw [if_neg he, lookupA, lookupA]
      by_cases hk : hd.1 = k
      · rw [if_pos hk, if_pos hk]
      · rw [if_neg hk, if_neg hk]
        exact ih

theorem lookupA_append_single_other {α : Type} (m : List (String × α))
    (k k2 : String) (v : α) (hne : k ≠ k2) :
    lookupA (m ++ [(k2, v)]) k = lookupA m k := by
  induction m with
  | nil =>
    show lookupA [(k2, v)] k = none
    rw [lookupA, if_neg (fun hc => hne hc.symm)]; rfl
  | cons hd tl ih =>
    show lookupA (hd :: (tl ++ _)) k = lookupA (hd :: tl) k
    rw [lookupA, lookupA]
    by_cases hk : hd.1 = k
    · rw [if_pos hk, if_pos hk]
    · rw [if_neg hk, if_neg hk]
      exact ih

theorem lookupA_upsertA_self {α : Type} (m : List (String × α)) (k : String)
    (v : α) : lookupA (upsertA m k v) k = some v := by
  rw [upsertA]
  by_cases h : (lookupA m k).isSome
  · rw [if_pos h]
    exact lookupA_map_set_self m k v h
  · rw [if_neg h]
    have h2 : lookupA m k = none := by
      cases h3 : lookupA m k with
      | none => rfl
      | some w => rw [h3] at h; exact absurd (by simp) h
    rw [lookupA_append_none _ h2, lookupA, if_pos rfl]

theorem lookupA_upsertA_other {α : Type} (m : List (String × α)) (k k2 : String)
    (v : α) (hne : k ≠ k2) : lookupA (upsertA m k2 v) k = lookupA m k := by
  rw [upsertA]
  by_cases h : (lookupA m k2).isSome
  · rw [if_pos h]
    exact lookupA_map_set_other m k k2 v hne
  · rw [if_neg h]
    exact lookupA_append_single_other m k k2 v hne


/-- Updating another key of a dict in place leaves this key's lookup
unchanged. -/
theorem lookupA_map_adjust_other {α : Type} (m : List (String × α))
    (k k2 : String) (f : α → α) (hne : k ≠ k2) :
    lookupA (m.map (fun p => if p.1 = k2 then (k2, f p.2) else p)) k
      = lookupA m k := by
  induction m with
  | nil => rfl
  | cons hd tl ih =>
    by_cases he : hd.1 = k2
    · show lookupA ((if hd.1 = k2 then (k2, f hd.2) else hd) :: _) k
          = lookupA (hd :: tl) k
      rw [if_pos he, lookupA, if_neg (fun hc => hne hc.symm), lookupA,
        if_neg (fun hc : hd.1 = k => hne (hc.symm.trans he))]
      exact ih
    · show lookupA ((if hd.1 = k2 then (k2, f hd.2) else hd) :: _) k
          = lookupA (hd :: tl) k
      rw [if_neg he, lookupA, lookupA]
      by_cases hk : hd.1 = k
      · rw [if_pos hk, if_pos hk]
      · rw [if_neg hk, if_neg hk]
        exact ih

/-- Updating a present key of a dict in place makes its lookup the updated
value. -/
theorem lookupA_map_adjust_self {α : Type} (m : List (String × α)) (k : String)
    (f : α → α) (w : α) (h : lookupA m k = some w) :
    lookupA (m.map (fun p => if p.1 = k then (k, f p.2) else p)) k
      = some (f w) := by
  induction m with
  | nil => cases h
  | cons hd tl ih =>
    by_cases he : hd.1 = k
    · rw [lookupA, if_pos he] at h
      obtain rfl : hd.2 = w := Option.some.inj h
      show lookupA ((if hd.1 = k then (k, f hd.2) else hd) :: _) k = some (f hd.2)
      rw [if_pos he, lookupA, if_pos rfl]
    · rw [lookupA, if_neg he] at h
      show lookupA ((if hd.1 = k then (k, f hd.2) else hd) :: _) k = some (f w)
      rw [if_neg he, lookupA, if_neg he]
      exact ih h

/-! ## Claim C1 (corrected) -/

/-- Counterexample to claim C1 as stated: the stored self-signing key is
`oldSelfKey`, the uploaded replacement carries the correct `replaces` id
"OLD" but no `signatures` field at all — an absent signature by the old
key — and the verify primitive rejects every signature; yet the upload is
accepted (no 400) and the new key replaces the old stored key. -/
theorem replace_self_signing_unsigned_replacement_accepted :
    upload_signing_keys_for_user (fun _ _ _ => false)
      (SigningStore.mk (some oldSelfKey) none) "@alice:test"
      (SigningUpload.mk (some unsignedReplacementKey) none)
      = Except.ok (SigningStore.mk (some unsignedReplacementKey) none) := by
  decide

/-- Claim C1, amended: for a user with an existing stored self-signing key,
an upload of a new self_signing_key whose `replaces` equals the existing
key's bare id and which carries a `signatures` field that is invalid —
missing the entry under (user, old key id) or failing cryptographic
verification — is rejected with a 400 client error, and the existing key
remains the current self-signing key.  (A replacement carrying no
`signatures` field at all is accepted; see the counterexample.) -/
theorem replace_self_signing_invalid_present_signature_rejected
    (verify : KeyInfo → String → String → Bool)
    (store : SigningStore) (user_id : String) (ssk oldKi : KeyInfo)
    (okid odata bare : String)
    (sigs : List (String × List (String × String)))
    (hold : store.self_signing = some oldKi)
    (holdkeys : oldKi.keys = some [(okid, odata)])
    (hbare : afterFirstColon okid = Except.ok bare)
    (huid : ssk.user_id = user_id)
    (husage : "self_signing" ∈ ssk.usage)
    (hrep : ssk.replaces = some bare)
    (hsigs : ssk.signatures = some sigs)
    (hbad : validOldKeySignature verify ssk user_id okid odata sigs = false) :
    upload_signing_keys_for_user verify store user_id
      (SigningUpload.mk (some ssk) none)
      = Except.error (PyErr.synapseError 400 "Invalid signature on self-signing key")
    ∧ upload_signing_keys_final_store verify store user_id
        (SigningUpload.mk (some ssk) none) = store := by
  have hmain : upload_signing_keys_for_user verify store user_id
      (SigningUpload.mk (some ssk) none)
      = Except.error (PyErr.synapseError 400 "Invalid signature on self-signing key") := by
    cases hl : lookupA sigs user_id with
    | none =>
      simp [upload_signing_keys_for_user, hold, holdkeys, hbare, huid, husage,
        hrep, hsigs, hl, get_verify_key_from_key_info,
        except_bind_error, except_bind_ok, except_map_error, except_map_ok,
        except_throw_def, except_pure_def]
    | some userSigs =>
      rw [validOldKeySignature, hl] at hbad
      rw [Bool.and_eq_false_iff] at hbad
      cases hbad with
      | inl h =>
        have h2 : lookupA userSigs okid = none := by
          cases h3 : lookupA userSigs okid with
          | none => rfl
          | some v => rw [h3] at h; exact absurd h (by simp)
        simp [upload_signing_keys_for_user, hold, holdkeys, hbare, huid, husage,
          hrep, hsigs, hl, h2, get_verify_key_from_key_info,
          except_bind_error, except_bind_ok, except_map_error, except_map_ok,
          except_throw_def, except_pure_def]
      | inr h =>
        simp [upload_signing_keys_for_user, hold, holdkeys, hbare, huid, husage,
          hrep, hsigs, hl, h, get_verify_key_from_key_info,
          except_bind_error, except_bind_ok, except_map_error, except_map_ok,
          except_throw_def, except_pure_def]
  exact ⟨hmain, by rw [upload_signing_keys_final_store, hmain]⟩

/-- Witness for the amended C1 theorem: a concrete replacement whose
signature entry is present under the old key id but cryptographically
invalid is rejected with a 400 and the stored key is unchanged. -/
theorem replace_self_signing_invalid_present_signature_rejected_witness :
    upload_signing_keys_for_user (fun _ _ _ => false)
      (SigningStore.mk (some oldSelfKey) none) "@alice:test"
      (SigningUpload.mk (some badSignedReplacementKey) none)
      = Except.error (PyErr.synapseError 400 "Invalid signature on self-signing key")
    ∧ upload_signing_keys_final_store (fun _ _ _ => false)
        (SigningStore.mk (some oldSelfKey) none) "@alice:test"
        (SigningUpload.mk (some badSignedReplacementKey) none)
      = SigningStore.mk (some oldSelfKey) none :=
  replace_self_signing_invalid_present_signature_rejected
    (fun _ _ _ => false) (SigningStore.mk (some oldSelfKey) none)
    "@alice:test" badSignedReplacementKey oldSelfKey
    "ed25519:OLD" "OLDDATA" "OLD"
    [("@alice:test", [("ed25519:OLD", "badsig")])]
    rfl rfl (by decide) rfl (by decide) rfl rfl (by decide)

/-! ## Claim C5 (corrected) -/

/-- Counterexample to claim C5 as stated: a structurally valid first
self-signing key (matching user_id, usage containing "self_signing", one
verify key) that carries a `signatures` field is rejected with a 400
"Invalid signature" even though no prior key exists — the verify primitive
here accepts everything, so the rejection is unconditional. -/
theorem first_self_signing_key_with_signatures_rejected :
    upload_signing_keys_for_user (fun _ _ _ => true)
      (SigningStore.mk none none) "@alice:test"
      (SigningUpload.mk (some signedFirstKey) none)
      = Except.error (PyErr.synapseError 400 "Invalid signature") := by
  decide

/-- Claim C5, amended: for a user with no stored self-signing key, an
upload of a structurally valid self_signing_key (matching user_id, usage
containing "self_signing", exactly one verify key) that carries no
`signatures` field succeeds and persists that key as the current
self-signing key, with no chain check applied. -/
theorem first_self_signing_key_upload_accepted
    (verify : KeyInfo → String → String → Bool) (store : SigningStore)
    (user_id : String) (ssk : KeyInfo) (kid kdata : String)
    (hold : store.self_signing = none)
    (huid : ssk.user_id = user_id)
    (husage : "self_signing" ∈ ssk.usage)
    (hsig : ssk.signatures = none)
    (hkeys : ssk.keys = some [(kid, kdata)]) :
    upload_signing_keys_for_user verify store user_id
      (SigningUpload.mk (some ssk) none)
      = Except.ok (SigningStore.mk (some ssk) store.user_signing) := by
  simp [upload_signing_keys_for_user, hold, huid, husage, hsig, hkeys,
    get_verify_key_from_key_info,
    except_bind_error, except_bind_ok, except_map_error, except_map_ok,
    except_throw_def, except_pure_def]

/-- Witness for the amended C5 theorem at a concrete first upload. -/
theorem first_self_signing_key_upload_accepted_witness :
    upload_signing_keys_for_user (fun _ _ _ => false)
      (SigningStore.mk none none) "@alice:test"
      (SigningUpload.mk (some plainFirstKey) none)
      = Except.ok (SigningStore.mk (some plainFirstKey) none) :=
  first_self_signing_key_upload_accepted (fun _ _ _ => false)
    (SigningStore.mk none none) "@alice:test" plainFirstKey
    "ed25519:NEW" "NEWDATA" rfl rfl (by decide) rfl rfl

/-! ## Claim C3 (confirmed) -/

/-- On ids that split as algorithm:key-id, the first loop of
_upload_one_time_keys_for_user succeeds. -/
theorem buildKeyList_ok (otks : List (String × JsonV))
    (hwf : ∀ p ∈ otks, ∃ ab, splitAlgId p.1 = Except.ok ab) :
    ∃ kl, buildKeyList otks = Except.ok kl := by
  induction otks with
  | nil => exact ⟨[], rfl⟩
  | cons hd tl ih =>
    obtain ⟨ab, hab⟩ := hwf hd (List.mem_cons_self hd tl)
    obtain ⟨kl, hkl⟩ := ih (fun p hp => hwf p (List.mem_cons_of_mem hd hp))
    exact ⟨(ab.1, ab.2, hd.2) :: kl, by
      simp [buildKeyList, hab, hkl, except_bind_ok, except_bind_error]⟩

/-- Claim C3: for an upload whose key ids are well formed, the call raises
a 400 client error exactly when some entry's stored value differs from the
new value under the conflict rule (strings exact, objects compared after
stripping `signatures`); and when every entry is already stored with a
matching value the call succeeds as a no-op (no error, nothing staged for
insertion), so repeated identical uploads are idempotent. -/
theorem one_time_key_upload_conflict_iff
    (existing : String → String → Option JsonV)
    (otks : List (String × JsonV))
    (hwf : ∀ p ∈ otks, ∃ ab, splitAlgId p.1 = Except.ok ab) :
    ((∃ m, upload_one_time_keys_for_user existing otks
        = Except.error (PyErr.synapseError 400 m))
      ↔ ∃ p ∈ otks, conflictsWithStored existing p)
    ∧ ((∀ p ∈ otks, matchesStored existing p) →
      upload_one_time_keys_for_user existing otks = Except.ok []) := by
  induction otks with
  | nil =>
    constructor
    · constructor
      · rintro ⟨m, hm⟩
        exact absurd hm (by simp [upload_one_time_keys_for_user, buildKeyList,
          checkNewKeys, except_bind_ok])
      · rintro ⟨p, hp, _⟩
        exact absurd hp (List.not_mem_nil p)
    · intro _
      simp [upload_one_time_keys_for_user, buildKeyList, checkNewKeys, except_bind_ok]
  | cons hd tl ih =>
    obtain ⟨⟨a, b⟩, hab⟩ := hwf hd (List.mem_cons_self hd tl)
    have hwtl : ∀ p ∈ tl, ∃ ab, splitAlgId p.1 = Except.ok ab :=
      fun p hp => hwf p (List.mem_cons_of_mem hd hp)
    obtain ⟨tail, htail⟩ := buildKeyList_ok tl hwtl
    obtain ⟨ihl, ihr⟩ := ih hwtl
    have hcons : upload_one_time_keys_for_user existing (hd :: tl)
        = checkNewKeys existing ((a, b, hd.2) :: tail) := by
      simp [upload_one_time_keys_for_user, buildKeyList, hab, htail,
        except_bind_ok]
    have htlup : upload_one_time_keys_for_user existing tl
        = checkNewKeys existing tail := by
      simp [upload_one_time_keys_for_user, htail, except_bind_ok]
    cases hex : existing a b with
    | some ex =>
      cases hm : one_time_keys_match ex hd.2 with
      | true =>
        have heq : upload_one_time_keys_for_user existing (hd :: tl)
            = upload_one_time_keys_for_user existing tl := by
          rw [hcons, htlup]; simp [checkNewKeys, hex, hm]
        constructor
        · rw [heq, ihl]
          constructor
          · rintro ⟨p, hp, hc⟩
            exact ⟨p, List.mem_cons_of_mem hd hp, hc⟩
          · rintro ⟨p, hp, hc⟩
            rcases List.mem_cons.mp hp with heq2 | hptl
            · subst heq2
              obtain ⟨a2, b2, ex2, hab2, hex2, hm2⟩ := hc
              rw [hab] at hab2
              obtain ⟨rfl, rfl⟩ : a = a2 ∧ b = b2 := by
                have := Except.ok.inj hab2
                exact ⟨congrArg Prod.fst this, congrArg Prod.snd this⟩
              rw [hex] at hex2
              obtain rfl : ex = ex2 := Option.some.inj hex2
              rw [hm] at hm2
              exact absurd hm2 (by simp)
            · exact ⟨p, hptl, hc⟩
        · intro hall
          rw [heq]
          exact ihr (fun p hp => hall p (List.mem_cons_of_mem hd hp))
      | false =>
        have herr : upload_one_time_keys_for_user existing (hd :: tl)
            = Except.error (PyErr.synapseError 400
              ("One time key " ++ a ++ ":" ++ b ++ " already exists. "
                ++ "Old key differs from new key.")) := by
          rw [hcons]; simp [checkNewKeys, hex, hm]
        constructor
        · constructor
          · intro _
            exact ⟨hd, List.mem_cons_self hd tl, a, b, ex, hab, hex, hm⟩
          · intro _
            exact ⟨_, herr⟩
        · intro hall
          obtain ⟨a2, b2, ex2, hab2, hex2, hm2⟩ := hall hd (List.mem_cons_self hd tl)
          rw [hab] at hab2
          obtain ⟨rfl, rfl⟩ : a = a2 ∧ b = b2 := by
            have := Except.ok.inj hab2
            exact ⟨congrArg Prod.fst this, congrArg Prod.snd this⟩
          rw [hex] at hex2
          obtain rfl : ex = ex2 := Option.some.inj hex2
          rw [hm] at hm2
          exact absurd hm2 (by simp)
    | none =>
      have hbind : upload_one_time_keys_for_user existing (hd :: tl)
          = (upload_one_time_keys_for_user existing tl
              >>= fun t => Except.ok ((a, b, hd.2) :: t)) := by
        rw [hcons, htlup]; simp [checkNewKeys, hex]
      constructor
      · rw [hbind]
        cases hup : upload_one_time_keys_for_user existing tl with
        | ok t =>
          simp only [hup, except_bind_ok]
          constructor
          · rintro ⟨m, hm⟩
            exact absurd hm (by simp)
          · rintro ⟨p, hp, hc⟩
            rcases List.mem_cons.mp hp with heq2 | hptl
            · subst heq2
              obtain ⟨a2, b2, ex2, hab2, hex2, hm2⟩ := hc
              rw [hab] at hab2
              obtain ⟨rfl, rfl⟩ : a = a2 ∧ b = b2 := by
                have := Except.ok.inj hab2
                exact ⟨congrArg Prod.fst this, congrArg Prod.snd this⟩
              rw [hex] at hex2
              exact absurd hex2 (by simp)
            · have hconf : ∃ m, upload_one_time_keys_for_user existing tl
                  = Except.error (PyErr.synapseError 400 m) := ihl.mpr ⟨p, hptl, hc⟩
              obtain ⟨m, hmm⟩ := hconf
              rw [hup] at hmm
              exact absurd hmm (by simp)
        | error e =>
          simp only [hup, except_bind_error]
          constructor
          · rintro ⟨m, hm⟩
            obtain ⟨p, hp, hc⟩ := ihl.mp ⟨m, by rw [hup, hm]⟩
            exact ⟨p, List.mem_cons_of_mem hd hp, hc⟩
          · rintro ⟨p, hp, hc⟩
            rcases List.mem_cons.mp hp with heq2 | hptl
            · subst heq2
              obtain ⟨a2, b2, ex2, hab2, hex2, hm2⟩ := hc
              rw [hab] at hab2
              obtain ⟨rfl, rfl⟩ : a = a2 ∧ b = b2 := by
                have := Except.ok.inj hab2
                exact ⟨congrArg Prod.fst this, congrArg Prod.snd this⟩
              rw [hex] at hex2
              exact absurd hex2 (by simp)
            · obtain ⟨m, hmm⟩ := ihl.mpr ⟨p, hptl, hc⟩
              rw [hup] at hmm
              exact ⟨m, hmm⟩
      · intro hall
        obtain ⟨a2, b2, ex2, hab2, hex2, hm2⟩ := hall hd (List.mem_cons_self hd tl)
        rw [hab] at hab2
        obtain ⟨rfl, rfl⟩ : a = a2 ∧ b = b2 := by
          have := Except.ok.inj hab2
          exact ⟨congrArg Prod.fst this, congrArg Prod.snd this⟩
        rw [hex] at hex2
        exact absurd hex2 (by simp)

/-- Witness for the C3 theorem: re-uploading the already stored string key
"key1" under alg1:k1 is accepted as a no-op. -/
theorem one_time_key_upload_conflict_iff_witness :
    upload_one_time_keys_for_user storedOneTimeKeys
      [("alg1:k1", JsonV.str "key1")] = Except.ok [] :=
  (one_time_key_upload_conflict_iff storedOneTimeKeys
    [("alg1:k1", JsonV.str "key1")]
    (by
      intro p hp
      simp only [List.mem_singleton] at hp
      subst hp
      exact ⟨("alg1", "k1"), by decide⟩)).2
    (by
      intro p hp
      simp only [List.mem_singleton] at hp
      subst hp
      exact ⟨"alg1", "k1", JsonV.str "key1", by decide, rfl, by decide⟩)

/-! ## Claim C4 (confirmed) -/

/-- Writes of a successful destination fold only touch users inside that
destination's own query, so a user outside the query set is untouched. -/
theorem foldl_results_preserve_guard
    (qs : List String) (r : List (String × JsonV)) (res : List (String × JsonV))
    (u : String) (hu : u ∉ qs) :
    lookupA (r.foldl (fun acc p =>
      if qs.contains p.1 then upsertA acc p.1 p.2 else acc) res) u
      = lookupA res u := by
  induction r generalizing res with
  | nil => rfl
  | cons hd tl ih =>
    rw [List.foldl_cons]
    by_cases hc : qs.contains hd.1
    · rw [if_pos hc, ih _]
      have hmem : hd.1 ∈ qs := by simpa using hc
      exact lookupA_upsertA_other res u hd.1 hd.2 (fun he => hu (he ▸ hmem))
    · rw [if_neg hc]
      exact ih _

/-- A user absent from the remaining response rows is untouched by the
fold over them. -/
theorem foldl_results_preserve_keys
    (qs : List String) (r : List (String × JsonV)) (res : List (String × JsonV))
    (u : String) (hu : ∀ p ∈ r, p.1 ≠ u) :
    lookupA (r.foldl (fun acc p =>
      if qs.contains p.1 then upsertA acc p.1 p.2 else acc) res) u
      = lookupA res u := by
  induction r generalizing res with
  | nil => rfl
  | cons hd tl ih =>
    rw [List.foldl_cons]
    have htl : ∀ p ∈ tl, p.1 ≠ u := fun p hp => hu p (List.mem_cons_of_mem hd hp)
    by_cases hc : qs.contains hd.1
    · rw [if_pos hc, ih _ htl]
      exact lookupA_upsertA_other res u hd.1 hd.2
        (fun he => hu hd (List.mem_cons_self hd tl) he.symm)
    · rw [if_neg hc]
      exact ih _ htl

/-- A queried user present in a destination's response (with unique user
rows) ends up in the results with that value. -/
theorem foldl_results_set
    (qs : List String) (r : List (String × JsonV)) (res : List (String × JsonV))
    (u : String) (v : JsonV) (hnodup : (r.map Prod.fst).Nodup)
    (hmem : (u, v) ∈ r) (hq : u ∈ qs) :
    lookupA (r.foldl (fun acc p =>
      if qs.contains p.1 then upsertA acc p.1 p.2 else acc) res) u = some v := by
  induction r generalizing res with
  | nil => cases hmem
  | cons hd tl ih =>
    rw [List.map_cons, List.nodup_cons] at hnodup
    rw [List.foldl_cons]
    rcases List.mem_cons.mp hmem with heq | htl
    · have hu1 : hd.1 = u := by rw [← heq]
      have hv1 : hd.2 = v := by rw [← heq]
      have hkeys : ∀ p ∈ tl, p.1 ≠ u := by
        intro p hp he
        exact hnodup.1 (by
          rw [hu1, ← he]
          exact List.mem_map_of_mem Prod.fst hp)
      rw [foldl_results_preserve_keys qs tl _ u hkeys]
      have hc : qs.contains hd.1 = true := by
        rw [hu1]; simpa using hq
      rw [if_pos hc, hu1, hv1]
      exact lookupA_upsertA_self res u v
    · exact ih _ hnodup.2 htl

/-- Another destination's unit never touches this destination's failure
entry. -/
theorem do_remote_query_failures_preserve
    (perform : String → Except TransportEx (List (String × JsonV)))
    (rq : String → List String) (d2 d : String)
    (acc : List (String × JsonV) × List (String × Failure)) (hne : d ≠ d2) :
    lookupA (do_remote_query perform rq d2 acc).2 d = lookupA acc.2 d := by
  rw [do_remote_query]
  cases perform d2 with
  | ok r => rfl
  | error e => exact lookupA_upsertA_other acc.2 d d2 _ hne

/-- Running the fan-out over destinations other than d leaves d's failure
entry unchanged. -/
theorem run_failures_preserve
    (perform : String → Except TransportEx (List (String × JsonV)))
    (rq : String → List String) (dests : List String)
    (acc : List (String × JsonV) × List (String × Failure)) (d : String)
    (hd : d ∉ dests) :
    lookupA (runRemoteQueries perform rq dests acc).2 d = lookupA acc.2 d := by
  induction dests generalizing acc with
  | nil => rfl
  | cons d1 rest ih =>
    rw [runRemoteQueries]
    rw [ih _ (fun hc => hd (List.mem_cons_of_mem d1 hc))]
    exact do_remote_query_failures_preserve perform rq d1 d acc
      (fun he => hd (he ▸ List.mem_cons_self d1 rest))

/-- Running the fan-out over destinations none of which query user u leaves
u's result entry unchanged. -/
theorem run_results_preserve
    (perform : String → Except TransportEx (List (String × JsonV)))
    (rq : String → List String) (dests : List String)
    (acc : List (String × JsonV) × List (String × Failure)) (u : String)
    (hu : ∀ d ∈ dests, u ∉ rq d) :
    lookupA (runRemoteQueries perform rq dests acc).1 u = lookupA acc.1 u := by
  induction dests generalizing acc with
  | nil => rfl
  | cons e1 erest ih =>
    rw [runRemoteQueries]
    rw [ih _ (fun d2 h2 => hu d2 (List.mem_cons_of_mem e1 h2))]
    rw [do_remote_query]
    cases perform e1 with
    | ok r1 =>
      exact foldl_results_preserve_guard (rq e1) r1 _ u
        (hu e1 (List.mem_cons_self e1 erest))
    | error e2 => rfl

/-- A failing destination ends up in the failure map with its mapped
record, whatever the other destinations do. -/
theorem run_failure_lookup
    (perform : String → Except TransportEx (List (String × JsonV)))
    (rq : String → List String) (dests : List String)
    (acc : List (String × JsonV) × List (String × Failure)) (d : String)
    (e : TransportEx) (hd : d ∈ dests) (hnodup : dests.Nodup)
    (hpe : perform d = Except.error e) :
    lookupA (runRemoteQueries perform rq dests acc).2 d
      = some (exception_to_failure e) := by
  induction dests generalizing acc with
  | nil => cases hd
  | cons d1 rest ih =>
    rw [List.nodup_cons] at hnodup
    rw [runRemoteQueries]
    rcases List.mem_cons.mp hd with rfl | hdr
    · rw [run_failures_preserve perform rq rest _ d hnodup.1]
      rw [do_remote_query, hpe]
      exact lookupA_upsertA_self acc.2 d _
    · exact ih _ hdr hnodup.2

/-- A successful destination's answer for its own queried user survives in
the merged results, whatever the other destinations do. -/
theorem run_success_lookup
    (perform : String → Except TransportEx (List (String × JsonV)))
    (rq : String → List String) (dests : List String)
    (acc : List (String × JsonV) × List (String × Failure)) (d : String)
    (r : List (String × JsonV)) (u : String) (v : JsonV)
    (hd : d ∈ dests)
    (hdisj : List.Pairwise (fun x y => ∀ w, w ∈ rq x → w ∉ rq y) dests)
    (hp : perform d = Except.ok r) (hrnd : (r.map Prod.fst).Nodup)
    (hmem : (u, v) ∈ r) (hq : u ∈ rq d) :
    lookupA (runRemoteQueries perform rq dests acc).1 u = some v := by
  induction dests generalizing acc with
  | nil => cases hd
  | cons d1 rest ih =>
    rw [List.pairwise_cons] at hdisj
    rw [runRemoteQueries]
    rcases List.mem_cons.mp hd with rfl | hdr
    · rw [run_results_preserve perform rq rest _ u
        (fun d2 h2 => hdisj.1 d2 h2 u hq)]
      rw [do_remote_query, hp]
      exact foldl_results_set (rq d) r acc.1 u v hrnd hmem hq
    · exact ih _ hdr hdisj.2

/-- Claim C4: in the device-key fan-out over pairwise-disjoint destination
queries, a failure at one destination never removes or alters another
destination's successful result — any successful destination's answer for
its queried users is present in the merged results — and the failing
destination appears in the failure map with the record produced by
_exception_to_failure: NotRetryingDestination maps to 503/"Not ready for
retry", FederationDeniedError to 403/"Federation Denied", and any other
transport exception to 503 with its message. -/
theorem remote_query_failure_isolation
    (perform : String → Except TransportEx (List (String × JsonV)))
    (remote_queries : String → List String) (dests : List String)
    (acc0 : List (String × JsonV) × List (String × Failure))
    (hnodup : dests.Nodup)
    (hdisj : List.Pairwise
      (fun x y => ∀ w, w ∈ remote_queries x → w ∉ remote_queries y) dests) :
    (∀ d ∈ dests, ∀ e, perform d = Except.error e →
      lookupA (runRemoteQueries perform remote_queries dests acc0).2 d
        = some (exception_to_failure e))
    ∧ (∀ d ∈ dests, ∀ r, perform d = Except.ok r → (r.map Prod.fst).Nodup →
        ∀ u v, (u, v) ∈ r → u ∈ remote_queries d →
        lookupA (runRemoteQueries perform remote_queries dests acc0).1 u = some v)
    ∧ exception_to_failure TransportEx.notRetrying
        = Failure.mk 503 "Not ready for retry"
    ∧ exception_to_failure TransportEx.federationDenied
        = Failure.mk 403 "Federation Denied"
    ∧ (∀ m, exception_to_failure (TransportEx.other m) = Failure.mk 503 m) := by
  refine ⟨?_, ?_, rfl, rfl, fun m => rfl⟩
  · intro d hd e hpe
    exact run_failure_lookup perform remote_queries dests acc0 d e hd hnodup hpe
  · intro d hd r hp hrnd u v hmem hq
    exact run_success_lookup perform remote_queries dests acc0 d r u v hd hdisj
      hp hrnd hmem hq

/-- Witness for the C4 theorem: three destinations where bad.example is
not retrying — the other two destinations' answers are merged and
bad.example carries the 503/"Not ready for retry" failure record. -/
theorem remote_query_failure_isolation_witness :
    lookupA (runRemoteQueries fanoutPerform fanoutQueries
      ["one.example", "bad.example", "two.example"] ([], [])).2 "bad.example"
      = some (Failure.mk 503 "Not ready for retry")
    ∧ lookupA (runRemoteQueries fanoutPerform fanoutQueries
      ["one.example", "bad.example", "two.example"] ([], [])).1 "@u1:one.example"
      = some (JsonV.str "keys1")
    ∧ lookupA (runRemoteQueries fanoutPerform fanoutQueries
      ["one.example", "bad.example", "two.example"] ([], [])).1 "@u2:two.example"
      = some (JsonV.str "keys2") := by
  obtain ⟨hfail, hok, hnr, _, _⟩ := remote_query_failure_isolation fanoutPerform
    fanoutQueries ["one.example", "bad.example", "two.example"] ([], [])
    (by decide)
    (by
      refine List.Pairwise.cons ?_ (List.Pairwise.cons ?_
        (List.Pairwise.cons ?_ List.Pairwise.nil))
      · intro y hy w hw hw2
        simp only [List.mem_cons, List.not_mem_nil, or_false] at hy
        simp [fanoutQueries] at hw
        subst hw
        rcases hy with rfl | rfl
        · simp [fanoutQueries] at hw2
        · simp [fanoutQueries] at hw2
      · intro y hy w hw hw2
        simp only [List.mem_singleton] at hy
        subst hy
        simp [fanoutQueries] at hw
        subst hw
        simp [fanoutQueries] at hw2
      · intro y hy w hw hw2
        exact absurd hy (List.not_mem_nil y))
  refine ⟨?_, ?_, ?_⟩
  · rw [← hnr]
    exact hfail "bad.example" (by decide) TransportEx.notRetrying
      (by simp [fanoutPerform])
  · exact hok "one.example" (by decide) [("@u1:one.example", JsonV.str "keys1")]
      (by simp [fanoutPerform]) (by decide) "@u1:one.example" (JsonV.str "keys1")
      (List.mem_singleton.mpr rfl) (by simp [fanoutQueries])
  · exact hok "two.example" (by decide) [("@u2:two.example", JsonV.str "keys2")]
      (by simp [fanoutPerform]) (by decide) "@u2:two.example" (JsonV.str "keys2")
      (List.mem_singleton.mpr rfl) (by simp [fanoutQueries])

/-! ## Claim C7 (confirmed) -/

/-- Python result_dict[user][device] = r succeeds when the user is present
and equals the in-place update. -/
theorem setUserDevice_ok (rd : List (String × List (String × Jso)))
    (u d : String) (r : Jso) (dm : List (String × Jso))
    (h : lookupA rd u = some dm) :
    setUserDevice rd u d r = Except.ok
      (rd.map (fun p => if p.1 = u then (u, upsertA p.2 d r) else p)) := by
  rw [setUserDevice, h]

/-- The inner device loop succeeds for a present user, keeps the user
present and leaves other users' entries unchanged. -/
theorem addUserDevices_ok (user : String) (dks : List (String × DeviceInfo))
    (rd : List (String × List (String × Jso)))
    (h : (lookupA rd user).isSome) :
    ∃ rd2, addUserDevices user dks rd = Except.ok rd2
      ∧ (∀ u2, u2 ≠ user → lookupA rd2 u2 = lookupA rd u2)
      ∧ (lookupA rd2 user).isSome := by
  induction dks generalizing rd with
  | nil => exact ⟨rd, rfl, fun u2 _ => rfl, h⟩
  | cons hd tl ih =>
    obtain ⟨dev, di⟩ := hd
    obtain ⟨dm, hdm⟩ := Option.isSome_iff_exists.mp h
    have hset := setUserDevice_ok rd user dev (deviceResultObj di) dm hdm
    have hself : lookupA (rd.map
        (fun p => if p.1 = user then (user, upsertA p.2 dev (deviceResultObj di)) else p))
        user = some (upsertA dm dev (deviceResultObj di)) :=
      lookupA_map_adjust_self rd user
        (fun x => upsertA x dev (deviceResultObj di)) dm hdm
    obtain ⟨rd2, hrun, hother, hsome⟩ := ih _ (by rw [hself]; rfl)
    refine ⟨rd2, ?_, ?_, hsome⟩
    · rw [addUserDevices, hset, except_bind_ok]
      exact hrun
    · intro u2 hne
      rw [hother u2 hne]
      exact lookupA_map_adjust_other rd u2 user
        (fun x => upsertA x dev (deviceResultObj di)) hne

/-- The store-result loop succeeds when every row names a seeded user;
presence is preserved and users with no rows keep their entry. -/
theorem addDeviceResults_ok
    (rows : List (String × List (String × DeviceInfo)))
    (rd : List (String × List (String × Jso)))
    (hrows : ∀ row ∈ rows, (lookupA rd row.1).isSome) :
    ∃ res, addDeviceResults rows rd = Except.ok res
      ∧ (∀ u, (lookupA rd u).isSome → (lookupA res u).isSome)
      ∧ (∀ u, (∀ row ∈ rows, row.1 ≠ u) → lookupA res u = lookupA rd u) := by
  induction rows generalizing rd with
  | nil => exact ⟨rd, rfl, fun u h => h, fun u _ => rfl⟩
  | cons hd tl ih =>
    obtain ⟨user, dks⟩ := hd
    obtain ⟨rd2, hrun, hother, hsome⟩ :=
      addUserDevices_ok user dks rd (hrows (user, dks) (List.mem_cons_self _ tl))
    have hpres : ∀ u, (lookupA rd u).isSome → (lookupA rd2 u).isSome := by
      intro u hu
      by_cases he : u = user
      · rw [he]; exact hsome
      · rw [hother u he]; exact hu
    obtain ⟨res, hrun2, hpres2, huntouched⟩ := ih rd2
      (fun row hrow => hpres row.1 (hrows row (List.mem_cons_of_mem _ hrow)))
    refine ⟨res, ?_, ?_, ?_⟩
    · rw [addDeviceResults, hrun, except_bind_ok]
      exact hrun2
    · intro u hu
      exact hpres2 u (hpres u hu)
    · intro u hu
      rw [huntouched u (fun row hrow => hu row (List.mem_cons_of_mem _ hrow))]
      exact hother u (fun he => hu (user, dks) (List.mem_cons_self _ tl) he.symm)

/-- With all users local and valid, the first loop succeeds, seeds every
requested user with an empty mapping, and only queries requested users. -/
theorem buildLocalQuery_ok (is_mv : String → Except PyErr Bool)
    (query : List (String × Option (List String)))
    (hmine : ∀ p ∈ query, is_mv p.1 = Except.ok true) :
    ∃ lq, buildLocalQuery is_mv query
        = Except.ok (lq, query.map (fun p => (p.1, [])))
      ∧ (∀ q ∈ lq, ∃ p ∈ query, q.1 = p.1) := by
  induction query with
  | nil => exact ⟨[], rfl, fun q hq => absurd hq (List.not_mem_nil q)⟩
  | cons hd tl ih =>
    obtain ⟨u1, dids⟩ := hd
    obtain ⟨lq, hrun, hsub⟩ := ih (fun p hp => hmine p (List.mem_cons_of_mem _ hp))
    have hm : is_mv u1 = Except.ok true := hmine (u1, dids) (List.mem_cons_self _ tl)
    have hsub2 : ∀ q ∈ lq, ∃ p ∈ (u1, dids) :: tl, q.1 = p.1 := by
      intro q hq
      obtain ⟨p, hp, he⟩ := hsub q hq
      exact ⟨p, List.mem_cons_of_mem _ hp, he⟩
    rcases dids with _ | ds
    · refine ⟨[(u1, none)] ++ lq, ?_, ?_⟩
      · rw [buildLocalQuery, hm]
        simp [hrun, except_bind_ok, except_throw_def, except_pure_def]
      · intro q hq
        rcases List.mem_append.mp hq with hent | hlq
        · rw [List.mem_singleton] at hent
          exact ⟨(u1, none), List.mem_cons_self _ tl, by rw [hent]⟩
        · exact hsub2 q hlq
    · rcases ds with _ | ⟨d1, drest⟩
      · refine ⟨[(u1, none)] ++ lq, ?_, ?_⟩
        · rw [buildLocalQuery, hm]
          simp [hrun, except_bind_ok, except_throw_def, except_pure_def]
        · intro q hq
          rcases List.mem_append.mp hq with hent | hlq
          · rw [List.mem_singleton] at hent
            exact ⟨(u1, some []), List.mem_cons_self _ tl, by rw [hent]⟩
          · exact hsub2 q hlq
      · refine ⟨(d1 :: drest).map (fun d => (u1, some d)) ++ lq, ?_, ?_⟩
        · rw [buildLocalQuery, hm]
          simp [hrun, except_bind_ok, except_throw_def, except_pure_def]
          exact fun hc => absurd hc (List.cons_ne_nil d1 drest)
        · intro q hq
          rcases List.mem_append.mp hq with hent | hlq
          · obtain ⟨d, _, hde⟩ := List.mem_map.mp hent
            exact ⟨(u1, some (d1 :: drest)), List.mem_cons_self _ tl, by rw [← hde]⟩
          · exact hsub2 q hlq

/-- Looking up any requested user in the seeded result dict yields the
empty device mapping. -/
theorem lookupA_map_empty_of_mem
    (query : List (String × Option (List String))) (u : String)
    (h : ∃ p ∈ query, p.1 = u) :
    lookupA (query.map (fun p => (p.1, ([] : List (String × Jso))))) u
      = some [] := by
  induction query with
  | nil =>
    obtain ⟨p, hp, _⟩ := h
    exact absurd hp (List.not_mem_nil p)
  | cons hd tl ih =>
    show lookupA ((hd.1, []) :: _) u = some []
    by_cases he : hd.1 = u
    · rw [lookupA, if_pos he]
    · rw [lookupA, if_neg he]
      apply ih
      obtain ⟨p, hp, hpe⟩ := h
      rcases List.mem_cons.mp hp with rfl | hptl
      · exact absurd hpe he
      · exact ⟨p, hptl, hpe⟩

/-- Claim C7: for a query in which all requested user ids are valid local
users (and a store answering only queried users), the call succeeds and
every requested user appears as a key of the result — mapped to the empty
device mapping when the store has no device rows for that user; a requested
user is never absent. -/
theorem query_local_devices_every_user_present
    (is_mv : String → Except PyErr Bool)
    (store_get : List (String × Option String) →
      List (String × List (String × DeviceInfo)))
    (query : List (String × Option (List String)))
    (hmine : ∀ p ∈ query, is_mv p.1 = Except.ok true)
    (hstore : ∀ lq, ∀ row ∈ store_get lq, ∃ q ∈ lq, row.1 = q.1) :
    ∃ lq res, buildLocalQuery is_mv query
        = Except.ok (lq, query.map (fun p => (p.1, [])))
      ∧ query_local_devices is_mv store_get query = Except.ok res
      ∧ ∀ p ∈ query, (∃ dm, lookupA res p.1 = some dm)
        ∧ ((∀ row ∈ store_get lq, row.1 ≠ p.1) → lookupA res p.1 = some []) := by
  obtain ⟨lq, hbuild, hsub⟩ := buildLocalQuery_ok is_mv query hmine
  have hrd : ∀ u, (∃ p ∈ query, p.1 = u) →
      lookupA (query.map (fun p => (p.1, ([] : List (String × Jso))))) u
        = some [] := fun u h => lookupA_map_empty_of_mem query u h
  obtain ⟨res, hrun, hpres, huntouched⟩ := addDeviceResults_ok (store_get lq)
    (query.map (fun p => (p.1, [])))
    (by
      intro row hrow
      obtain ⟨q, hq, he⟩ := hstore lq row hrow
      obtain ⟨p, hp, he2⟩ := hsub q hq
      rw [hrd row.1 ⟨p, hp, by rw [← he2, ← he]⟩]
      rfl)
  refine ⟨lq, res, hbuild, ?_, ?_⟩
  · rw [query_local_devices, hbuild, except_bind_ok]
    exact hrun
  · intro p hp
    constructor
    · have hs := hpres p.1 (by rw [hrd p.1 ⟨p, hp, rfl⟩]; rfl)
      exact Option.isSome_iff_exists.mp hs
    · intro hnone
      rw [huntouched p.1 hnone]
      exact hrd p.1 ⟨p, hp, rfl⟩


/-- Witness for the C7 theorem: one local user with zero devices is mapped
to the empty device mapping. -/
theorem query_local_devices_every_user_present_witness :
    ∃ lq res, buildLocalQuery (fun _ => Except.ok true) [("@boris:test", none)]
        = Except.ok (lq, [("@boris:test", [])])
      ∧ query_local_devices (fun _ => Except.ok true) (fun _ => [])
          [("@boris:test", none)] = Except.ok res
      ∧ ∀ p ∈ [("@boris:test", (none : Option (List String)))],
          (∃ dm, lookupA res p.1 = some dm)
        ∧ ((∀ row ∈ ([] : List (String × List (String × DeviceInfo))),
              row.1 ≠ p.1) → lookupA res p.1 = some []) :=
  query_local_devices_every_user_present (fun _ => Except.ok true)
    (fun _ => []) [("@boris:test", none)]
    (fun _ _ => rfl) (fun _ row hrow => absurd hrow (List.not_mem_nil row))


/-! ## Claim C8 (confirmed) -/

/-- Claim C8: with no stored self-signing key, an upload carrying only a
user_signing_key does not produce a 400 client error: the current
self-signing key slot is still empty when _get_verify_key_from_key_info is
applied to it, and the Python membership test on None raises TypeError
before the user-signing key is examined — the conclusion does not depend on
the user-signing key at all, and TypeError is not a SynapseError. -/
theorem user_signing_upload_without_stored_self_signing_type_error
    (verify : KeyInfo → String → String → Bool) (store : SigningStore)
    (user_id : String) (usk : KeyInfo)
    (hssk : store.self_signing = none) :
    upload_signing_keys_for_user verify store user_id
      (SigningUpload.mk none (some usk)) = Except.error PyErr.typeError := by
  simp [upload_signing_keys_for_user, hssk, get_verify_key_from_key_info,
    except_bind_error, except_bind_ok, except_map_error, except_map_ok,
    except_throw_def, except_pure_def]

/-- Witness for the C8 theorem at a concrete upload. -/
theorem user_signing_upload_without_stored_self_signing_type_error_witness :
    upload_signing_keys_for_user (fun _ _ _ => true)
      (SigningStore.mk none none) "@alice:test"
      (SigningUpload.mk none (some someUserSigningKey))
      = Except.error PyErr.typeError :=
  user_signing_upload_without_stored_self_signing_type_error
    (fun _ _ _ => true) (SigningStore.mk none none) "@alice:test"
    someUserSigningKey rfl

/-! ## Claim C10 (confirmed) -/

/-- A value found after an upsert is either the upserted value or was
already there. -/
theorem lookupA_upsertA_cases {α : Type} (m : List (String × α))
    (k : String) (v : α) (k2 : String) (w : α)
    (h : lookupA (upsertA m k v) k2 = some w) :
    w = v ∨ lookupA m k2 = some w := by
  by_cases he : k2 = k
  · subst he
    rw [lookupA_upsertA_self] at h
    exact Or.inl (Option.some.inj h).symm
  · rw [lookupA_upsertA_other m k2 k v he] at h
    exact Or.inr h

/-- One claimed-key write keeps all device entries at size at most one. -/
theorem addClaimedKey_inv (jr : List (String × List (String × Jso)))
    (u d kid : String) (v : JsonV) (h : singletonInv jr) :
    singletonInv (addClaimedKey jr u d kid v) := by
  intro u2 dm2 d2 e2 hu hd
  rw [addClaimedKey] at hu
  rcases lookupA_upsertA_cases _ _ _ _ _ hu with rfl | hold
  · rcases lookupA_upsertA_cases _ _ _ _ _ hd with rfl | holdd
    · simp
    · cases hjr : lookupA jr u with
      | none => rw [hjr] at holdd; cases holdd
      | some m0 =>
        rw [hjr] at holdd
        exact h u m0 d2 e2 hjr holdd
  · exact h u2 dm2 d2 e2 hold hd

/-- The per-device loop keeps all device entries at size at most one. -/
theorem addClaimedDevice_inv (u d : String) (ks : List (String × JsonV))
    (jr : List (String × List (String × Jso))) (h : singletonInv jr) :
    singletonInv (addClaimedDevice u d ks jr) := by
  induction ks generalizing jr with
  | nil => exact h
  | cons hd tl ih =>
    obtain ⟨kid, v⟩ := hd
    exact ih _ (addClaimedKey_inv jr u d kid v h)

/-- The per-user loop keeps all device entries at size at most one. -/
theorem addClaimedUser_inv (u : String)
    (dks : List (String × List (String × JsonV)))
    (jr : List (String × List (String × Jso))) (h : singletonInv jr) :
    singletonInv (addClaimedUser u dks jr) := by
  induction dks generalizing jr with
  | nil => exact h
  | cons hd tl ih =>
    obtain ⟨d, ks⟩ := hd
    exact ih _ (addClaimedDevice_inv u d ks jr h)

/-- The whole accumulation keeps all device entries at size at most one. -/
theorem claimedKeysResult_go_inv
    (results : List (String × List (String × List (String × JsonV))))
    (jr : List (String × List (String × Jso))) (h : singletonInv jr) :
    singletonInv (claimedKeysResult.go results jr) := by
  induction results generalizing jr with
  | nil => exact h
  | cons hd tl ih =>
    obtain ⟨u, dks⟩ := hd
    exact ih _ (addClaimedUser_inv u dks jr h)

/-- A claimed-key write makes this (user, device) entry the fresh
singleton. -/
theorem viewUD_addClaimedKey_self (jr : List (String × List (String × Jso)))
    (u d kid : String) (v : JsonV) :
    viewUD (addClaimedKey jr u d kid v) u d = some [(kid, v)] := by
  rw [viewUD, addClaimedKey, lookupA_upsertA_self]
  exact lookupA_upsertA_self _ d _

/-- A claimed-key write leaves every other (user, device) entry
unchanged. -/
theorem viewUD_addClaimedKey_other (jr : List (String × List (String × Jso)))
    (u d kid : String) (v : JsonV) (u2 d2 : String)
    (hne : u2 ≠ u ∨ d2 ≠ d) :
    viewUD (addClaimedKey jr u d kid v) u2 d2 = viewUD jr u2 d2 := by
  by_cases hu : u2 = u
  · subst hu
    have hd2 : d2 ≠ d := hne.resolve_left (fun hc => hc rfl)
    rw [viewUD, addClaimedKey, lookupA_upsertA_self]
    show lookupA (upsertA ((lookupA jr u2).getD []) d [(kid, v)]) d2
        = viewUD jr u2 d2
    rw [lookupA_upsertA_other _ d2 d _ hd2, viewUD]
    cases hjr : lookupA jr u2 with
    | none => simp [hjr, lookupA]
    | some m0 => simp [hjr]
  · rw [viewUD, addClaimedKey, lookupA_upsertA_other _ u2 u _ hu, viewUD]

/-- The per-device loop leaves other (user, device) entries unchanged. -/
theorem viewUD_addClaimedDevice_other (u d : String)
    (ks : List (String × JsonV)) (jr : List (String × List (String × Jso)))
    (u2 d2 : String) (hne : u2 ≠ u ∨ d2 ≠ d) :
    viewUD (addClaimedDevice u d ks jr) u2 d2 = viewUD jr u2 d2 := by
  induction ks generalizing jr with
  | nil => rfl
  | cons hd tl ih =>
    obtain ⟨kid, v⟩ := hd
    rw [addClaimedDevice, ih _, viewUD_addClaimedKey_other jr u d kid v u2 d2 hne]

/-- After the per-device loop over a nonempty key list, the device entry is
the singleton of the last-iterated key. -/
theorem viewUD_addClaimedDevice_self (u d : String)
    (ks : List (String × JsonV)) (jr : List (String × List (String × Jso)))
    (hks : ks ≠ []) :
    ∃ lastp, ks.getLast? = some lastp
      ∧ viewUD (addClaimedDevice u d ks jr) u d = some [lastp] := by
  induction ks generalizing jr with
  | nil => exact absurd rfl hks
  | cons hd tl ih =>
    obtain ⟨kid, v⟩ := hd
    cases tl with
    | nil =>
      refine ⟨(kid, v), rfl, ?_⟩
      rw [addClaimedDevice, addClaimedDevice]
      exact viewUD_addClaimedKey_self jr u d kid v
    | cons q qtl =>
      obtain ⟨lastp, hlast, hview⟩ := ih (addClaimedKey jr u d kid v)
        (List.cons_ne_nil q qtl)
      refine ⟨lastp, ?_, ?_⟩
      · rw [List.getLast?_cons_cons]
        exact hlast
      · rw [addClaimedDevice]
        exact hview

/-- The per-user loop leaves other users' entries unchanged. -/
theorem viewUD_addClaimedUser_other (u : String)
    (dks : List (String × List (String × JsonV)))
    (jr : List (String × List (String × Jso))) (u2 d2 : String) (hne : u2 ≠ u) :
    viewUD (addClaimedUser u dks jr) u2 d2 = viewUD jr u2 d2 := by
  induction dks generalizing jr with
  | nil => rfl
  | cons hd tl ih =>
    obtain ⟨d, ks⟩ := hd
    rw [addClaimedUser, ih _,
      viewUD_addClaimedDevice_other u d ks jr u2 d2 (Or.inl hne)]

/-- Devices later in the same user's map do not disturb an already-written
device entry. -/
theorem viewUD_addClaimedUser_preserve (u : String)
    (tl : List (String × List (String × JsonV)))
    (jr : List (String × List (String × Jso))) (d : String) (x : Option Jso)
    (hnd : ∀ row ∈ tl, row.1 ≠ d) (hv : viewUD jr u d = x) :
    viewUD (addClaimedUser u tl jr) u d = x := by
  induction tl generalizing jr with
  | nil => exact hv
  | cons t2 ttl ih =>
    obtain ⟨dt, kst⟩ := t2
    rw [addClaimedUser]
    refine ih _ (fun row hr => hnd row (List.mem_cons_of_mem _ hr)) ?_
    rw [viewUD_addClaimedDevice_other u dt kst jr u d
      (Or.inr (fun hc => hnd (dt, kst) (List.mem_cons_self _ ttl) hc.symm))]
    exact hv

/-- Within one user's map (distinct devices), each device entry ends as the
singleton of its last-iterated key. -/
theorem viewUD_addClaimedUser_self (u : String)
    (dks : List (String × List (String × JsonV)))
    (jr : List (String × List (String × Jso))) (d : String)
    (ks : List (String × JsonV)) (hmem : (d, ks) ∈ dks)
    (hnodup : (dks.map Prod.fst).Nodup) (hks : ks ≠ []) :
    ∃ lastp, ks.getLast? = some lastp
      ∧ viewUD (addClaimedUser u dks jr) u d = some [lastp] := by
  induction dks generalizing jr with
  | nil => cases hmem
  | cons hd tl ih =>
    obtain ⟨d1, ks1⟩ := hd
    rw [List.map_cons, List.nodup_cons] at hnodup
    rcases List.mem_cons.mp hmem with heq | htl
    · have hd1 : d1 = d := (congrArg Prod.fst heq).symm
      have hks1 : ks1 = ks := (congrArg Prod.snd heq).symm
      subst hd1
      subst hks1
      obtain ⟨lastp, hlast, hview⟩ := viewUD_addClaimedDevice_self u d1 ks1 jr hks
      refine ⟨lastp, hlast, ?_⟩
      rw [addClaimedUser]
      refine viewUD_addClaimedUser_preserve u tl _ d1 _ ?_ hview
      intro row hr hc
      exact hnodup.1 (List.mem_map.mpr ⟨row, hr, hc⟩)
    · exact ih _ htl hnodup.2

/-- Later users' processing does not disturb this user's entries. -/
theorem viewUD_go_preserve
    (results : List (String × List (String × List (String × JsonV))))
    (jr : List (String × List (String × Jso))) (u d : String) (x : Option Jso)
    (hnu : ∀ row ∈ results, row.1 ≠ u) (hv : viewUD jr u d = x) :
    viewUD (claimedKeysResult.go results jr) u d = x := by
  induction results generalizing jr with
  | nil => exact hv
  | cons hd tl ih =>
    obtain ⟨u1, dks1⟩ := hd
    rw [claimedKeysResult.go]
    refine ih _ (fun row hr => hnu row (List.mem_cons_of_mem _ hr)) ?_
    rw [viewUD_addClaimedUser_other u1 dks1 jr u d
      (fun hc => hnu (u1, dks1) (List.mem_cons_self _ tl) hc.symm)]
    exact hv

/-- Across the whole accumulation (distinct users, distinct devices per
user), each device entry is the singleton of its last-iterated key. -/
theorem viewUD_go_self
    (results : List (String × List (String × List (String × JsonV))))
    (jr : List (String × List (String × Jso))) (u : String)
    (dks : List (String × List (String × JsonV))) (d : String)
    (ks : List (String × JsonV))
    (hmem_u : (u, dks) ∈ results) (hnodup_u : (results.map Prod.fst).Nodup)
    (hnodup_d : (dks.map Prod.fst).Nodup)
    (hmem_d : (d, ks) ∈ dks) (hks : ks ≠ []) :
    ∃ lastp, ks.getLast? = some lastp
      ∧ viewUD (claimedKeysResult.go results jr) u d = some [lastp] := by
  induction results generalizing jr with
  | nil => cases hmem_u
  | cons hd tl ih =>
    obtain ⟨u1, dks1⟩ := hd
    rw [List.map_cons, List.nodup_cons] at hnodup_u
    rcases List.mem_cons.mp hmem_u with heq | htl
    · have hu1 : u1 = u := (congrArg Prod.fst heq).symm
      have hdks1 : dks1 = dks := (congrArg Prod.snd heq).symm
      subst hu1
      subst hdks1
      obtain ⟨lastp, hlast, hview⟩ :=
        viewUD_addClaimedUser_self u1 dks1 jr d ks hmem_d hnodup_d hks
      refine ⟨lastp, hlast, ?_⟩
      rw [claimedKeysResult.go]
      refine viewUD_go_preserve tl _ u1 d _ ?_ hview
      intro row hr hc
      exact hnodup_u.1 (List.mem_map.mpr ⟨row, hr, hc⟩)
    · rw [claimedKeysResult.go]
      exact ih _ htl hnodup_u.2

/-- Claim C10: in claim_one_time_keys' local-result accumulation, each
per-device entry holds at most one claimed key; when the store returns a
nonempty key list for a (user, device) — users distinct, devices distinct
per user — only the last-iterated key id appears in the response and the
others are silently dropped. -/
theorem claimed_keys_last_write_wins
    (results : List (String × List (String × List (String × JsonV))))
    (hnodup_u : (results.map Prod.fst).Nodup)
    (hnodup_d : ∀ row ∈ results, (row.2.map Prod.fst).Nodup) :
    (∀ u dks d ks, (u, dks) ∈ results → (d, ks) ∈ dks → ks ≠ [] →
      ∃ dm lastp, ks.getLast? = some lastp
        ∧ lookupA (claimedKeysResult results) u = some dm
        ∧ lookupA dm d = some [lastp])
    ∧ (∀ u dm d entry, lookupA (claimedKeysResult results) u = some dm →
        lookupA dm d = some entry → entry.length ≤ 1) := by
  constructor
  · intro u dks d ks hmu hmd hks
    obtain ⟨lastp, hlast, hview⟩ := viewUD_go_self results [] u dks d ks hmu
      hnodup_u (hnodup_d (u, dks) hmu) hmd hks
    rw [viewUD] at hview
    cases hjr : lookupA (claimedKeysResult.go results []) u with
    | none => rw [hjr] at hview; cases hview
    | some dm =>
      rw [hjr] at hview
      exact ⟨dm, lastp, hlast, hjr, hview⟩
  · intro u dm d entry hu hd
    exact claimedKeysResult_go_inv results [] (fun _ _ _ _ h _ => by cases h)
      u dm d entry hu hd


/-- Witness for the C10 theorem: two claimed keys for one device — only the
second survives in the response. -/
theorem claimed_keys_last_write_wins_witness :
    ∃ dm lastp,
      ([("alg1:k1", JsonV.str "key1"), ("alg1:k2", JsonV.str "key2")]).getLast?
        = some lastp
      ∧ lookupA (claimedKeysResult
          [("@alice:test", [("xyz",
            [("alg1:k1", JsonV.str "key1"), ("alg1:k2", JsonV.str "key2")])])])
          "@alice:test" = some dm
      ∧ lookupA dm "xyz" = some [lastp] :=
  (claimed_keys_last_write_wins
    [("@alice:test", [("xyz",
      [("alg1:k1", JsonV.str "key1"), ("alg1:k2", JsonV.str "key2")])])]
    (by decide)
    (fun row hrow => by
      rw [List.mem_singleton] at hrow
      rw [hrow]
      decide)).1
    "@alice:test" _ "xyz" _ (List.mem_singleton.mpr rfl)
    (List.mem_singleton.mpr rfl) (List.cons_ne_nil _ _)


/-! ## Claims C2, C6 and C9: device-signature attestations -/

/-- Claim C2 (code bug): evaluating the code at the failing input — an
attestation for bob's device over a payload differing from the stored
DeviceKeys object.  The call raises the uncaught AttributeError of line
465 instead of comparing the stripped payload with the stored object:
`signatures` is rebound to an empty list at line 464, so the check loop
that was written to enforce exactly the claimed invariant (line 478
compares the stripped payload with devices[user][device] before staging)
never runs, and nothing is ever persisted or rejected per-entry. -/
theorem upload_signatures_attribute_error_at_stale_input :
    upload_signatures_for_device_keys attSelfKey attUserKey attDevices
      "@alice:test" [("@bob:test", [("dev1", attStaleBobKey)])]
      = Except.error PyErr.attributeError := rfl

/-- Counterexample to claim C6 as stated: a batch holding an invalid entry
(carol's attestation names a device unknown to the store) together with a
perfectly valid entry for bob is not processed per-entry at all — the call
raises an uncaught AttributeError at `signatures.items()` (line 465, after
`signatures = []` at line 464) before examining any entry, so the valid
entry for bob is neither verified nor persisted and the batched store
write never happens. -/
theorem upload_signatures_invalid_entry_call_raises :
    upload_signatures_for_device_keys attSelfKey attUserKey attDevices
      "@alice:test"
      [("@carol:test", [("devUnknown", attBadKey)]),
       ("@bob:test", [("dev1", attGoodKey)])]
      = Except.error PyErr.attributeError := rfl

/-- Claim C6, amended: upload_signatures_for_device_keys never gets to
skip or persist anything: once the uploader's two signing-key records
resolve, every call — whatever the batch holds — raises an uncaught
AttributeError, because line 464 rebinds the `signatures` parameter to an
empty staging list and line 465 calls `.items()` on it.  No entry of the
batch is examined; the per-entry skip logic and the batched store write of
lines 466-487 are unreachable. -/
theorem upload_signatures_always_attribute_error
    (self_signing_key user_signing_key : Option KeyInfo)
    (devices : String → String → Option Jso) (user_id : String)
    (signatures : List (String × List (String × Jso)))
    (sskp uskp : String × String)
    (hssk : get_verify_key_from_key_info self_signing_key = Except.ok sskp)
    (husk : get_verify_key_from_key_info user_signing_key = Except.ok uskp) :
    upload_signatures_for_device_keys self_signing_key user_signing_key
      devices user_id signatures = Except.error PyErr.attributeError := by
  rw [upload_signatures_for_device_keys, hssk, except_bind_ok, husk,
    except_bind_ok]
  rfl

/-- Witness for the amended C6 theorem at a concrete mixed batch. -/
theorem upload_signatures_always_attribute_error_witness :
    upload_signatures_for_device_keys attSelfKey attUserKey attDevices
      "@alice:test"
      [("@carol:test", [("dev2", attBadKey)]),
       ("@bob:test", [("dev1", attGoodKey)])]
      = Except.error PyErr.attributeError :=
  upload_signatures_always_attribute_error attSelfKey attUserKey attDevices
    "@alice:test"
    [("@carol:test", [("dev2", attBadKey)]),
     ("@bob:test", [("dev1", attGoodKey)])]
    ("ed25519:SSK", "SSKDATA") ("ed25519:USK", "USKDATA") rfl rfl

/-- Counterexample to claim C9 as stated: at the claim's own trigger — an
entry for a device known to the store, carrying a matching `signatures`
entry under (alice, the selected signer key id) but no `unsigned` field —
the call raises AttributeError, not the claimed KeyError: the
`del key["unsigned"]` statement of line 477 is unreachable because line
465 raises on the rebound empty list before any entry is examined, and no
caller-supplied object is ever mutated. -/
theorem upload_signatures_no_key_error :
    upload_signatures_for_device_keys attSelfKey attUserKey attDevices
      "@alice:test" [("@bob:test", [("dev1", attNoUnsignedKey)])]
      = Except.error PyErr.attributeError
    ∧ PyErr.attributeError ≠ PyErr.keyError :=
  ⟨rfl, by decide⟩

/-- Claim C9, amended: for every batch containing an entry with a known
target device, a matching `signatures` entry and no `unsigned` field — the
situation the claim blames for an uncaught KeyError — the call raises
AttributeError at line 465 before that entry is ever reached: no KeyError
occurs, and the caller's key objects are never examined or stripped in
place, because the in-place `del` statements are dead code. -/
theorem upload_signatures_unsigned_entry_attribute_error
    (self_signing_key user_signing_key : Option KeyInfo)
    (devices : String → String → Option Jso) (user_id : String)
    (user device : String) (key : Jso) (dmRest : List (String × Jso))
    (rest : List (String × List (String × Jso)))
    (sskp uskp : String × String) (stored : Jso) (s : JsonV)
    (hssk : get_verify_key_from_key_info self_signing_key = Except.ok sskp)
    (husk : get_verify_key_from_key_info user_signing_key = Except.ok uskp)
    (hdev : devices user device = some stored)
    (hsig : sigLookup key user_id (if user = user_id then sskp else uskp).1
      = some s)
    (huns : lookupA (eraseA key "signatures") "unsigned" = none) :
    upload_signatures_for_device_keys self_signing_key user_signing_key
      devices user_id ((user, (device, key) :: dmRest) :: rest)
      = Except.error PyErr.attributeError
    ∧ PyErr.attributeError ≠ PyErr.keyError := by
  refine ⟨?_, by decide⟩
  rw [upload_signatures_for_device_keys, hssk, except_bind_ok, husk,
    except_bind_ok]
  rfl

/-- Witness for the amended C9 theorem: the no-`unsigned` entry for bob's
known device, followed by a second user's entry, still yields the
AttributeError. -/
theorem upload_signatures_unsigned_entry_attribute_error_witness :
    upload_signatures_for_device_keys attSelfKey attUserKey attDevices
      "@alice:test"
      [("@bob:test", [("dev1", attNoUnsignedKey)]),
       ("@carol:test", [("dev2", attBadKey)])]
      = Except.error PyErr.attributeError
    ∧ PyErr.attributeError ≠ PyErr.keyError :=
  upload_signatures_unsigned_entry_attribute_error attSelfKey attUserKey
    attDevices "@alice:test" "@bob:test" "dev1" attNoUnsignedKey []
    [("@carol:test", [("dev2", attBadKey)])]
    ("ed25519:SSK", "SSKDATA") ("ed25519:USK", "USKDATA") attStoredBob
    (JsonV.str "sig3") rfl rfl rfl rfl rfl

end E2eKeys
